import Mathlib

/-!
Verification of the DuoScience client library (`duoscience/client.py`).

The development shallowly embeds the client-side submit-then-stream protocol:

* `PyVal` / `Dict` model the JSON-like Python values and `dict` objects
  (insertion-ordered, last-writer-wins on key update) used for payloads,
  file descriptors and stream events.
* `prepareOne` / `prepare_files` embed `DuoScienceClient._prepare_files`.
* `initPhase` / `consume` / `streamPhase` / `streamTask` embed
  `DuoScienceClient._stream_task`, with the HTTP and SSE transports
  represented as oracles (`PostOutcome`, `StreamBehavior`, `Decoder`).
* `composePayload` / `chat` / `research` / `hypotheses` embed the public
  task methods.

External collaborators (`requests`, `sseclient`, `json.loads`,
`mimetypes.guess_type`, and the file loader / image compressor imported
from `.utils`) are modelled as explicit parameters, so every theorem is a
statement about what the client code does for all transport behaviours.
-/

namespace DuoScience

/-- Python values as they occur in payloads, file descriptors and decoded
stream events: strings, integers, booleans, `None`, lists and
string-keyed dictionaries. -/
inductive PyVal where
  | str : String → PyVal
  | int : Int → PyVal
  | bool : Bool → PyVal
  | none : PyVal
  | list : List PyVal → PyVal
  | dict : List (String × PyVal) → PyVal
deriving Repr

/-- A Python `dict` with string keys, modelled as an insertion-ordered
association list (keys are kept unique by `dictSet`). -/
abbrev Dict := List (String × PyVal)

/-- Key membership test, `k in d`. -/
def dictHas (d : Dict) (k : String) : Bool :=
  d.any (fun p => p.1 == k)

/-- Python `d.get(k)`: the value at the first (and, for genuine dicts,
only) occurrence of `k`, or `None`-as-`Option.none` when absent. -/
def dictGet (d : Dict) (k : String) : Option PyVal :=
  (d.find? (fun p => p.1 == k)).map Prod.snd

/-- Python `d[k] = v`: replace the value at an existing key in place
(keeping its position), otherwise append the new binding at the end. -/
def dictSet : Dict → String → PyVal → Dict
  | [], k, v => [(k, v)]
  | p :: rest, k, v => if p.1 == k then (k, v) :: rest else p :: dictSet rest k v

/-- Insert a sequence of bindings in order (the semantics of a Python
dict display with splats, e.g. `\x7b"a": x, **kwargs\x7d`). -/
def dictMerge (d : Dict) (ps : List (String × PyVal)) : Dict :=
  ps.foldl (fun a kv => dictSet a kv.1 kv.2) d

/-- A Python dict literal built from bindings taken in order. -/
def dictLit (ps : List (String × PyVal)) : Dict :=
  dictMerge [] ps

/-- Python truthiness for the values we model (`if not task_id`). -/
def pyTruthy : PyVal → Bool
  | .str s => s != ""
  | .int n => n != 0
  | .bool b => b
  | .none => false
  | .list l => !l.isEmpty
  | .dict d => !d.isEmpty

theorem dictHas_dictSet (d : Dict) (a k : String) (v : PyVal) :
    dictHas (dictSet d a v) k = (a == k || dictHas d k) := by
  induction d with
  | nil => simp [dictSet, dictHas]
  | cons p rest ih =>
      by_cases hpa : p.1 = a
      · subst hpa
        cases hak : (p.1 == k) <;>
          simp [dictSet, dictHas, List.any_cons, hak]
      · have hpa2 : (p.1 == a) = false := by simpa using hpa
        have hstep : dictSet (p :: rest) a v = p :: dictSet rest a v := by
          simp [dictSet, hpa2]
        have hcons : ∀ (q : String × PyVal) (l : Dict),
            dictHas (q :: l) k = (q.1 == k || dictHas l k) := by
          intro q l; simp [dictHas, List.any_cons]
        rw [hstep, hcons, ih, hcons]
        cases hak : (a == k) <;> cases hpk : (p.1 == k) <;> simp [hak, hpk]

theorem dictGet_dictSet_self (d : Dict) (k : String) (v : PyVal) :
    dictGet (dictSet d k v) k = Option.some v := by
  induction d with
  | nil => simp [dictSet, dictGet, List.find?]
  | cons p rest ih =>
      by_cases hpk : p.1 = k
      · subst hpk
        simp [dictSet, dictGet, List.find?]
      · have hpk2 : (p.1 == k) = false := by simpa using hpk
        simpa [dictSet, dictGet, List.find?, hpk2] using ih

theorem dictGet_dictSet_of_ne (d : Dict) (a k : String) (v : PyVal) (h : a ≠ k) :
    dictGet (dictSet d a v) k = dictGet d k := by
  have hak : (a == k) = false := by simpa using h
  induction d with
  | nil => simp [dictSet, dictGet, List.find?, hak]
  | cons p rest ih =>
      by_cases hpa : p.1 = a
      · subst hpa
        simp [dictSet, dictGet, List.find?, hak]
      · have hpa2 : (p.1 == a) = false := by simpa using hpa
        by_cases hpk : p.1 = k
        · subst hpk
          simp [dictSet, dictGet, List.find?, hpa2]
        · have hpk2 : (p.1 == k) = false := by simpa using hpk
          simpa [dictSet, dictGet, List.find?, hpa2, hpk2] using ih

theorem dictHas_dictMerge (ps : List (String × PyVal)) (d : Dict) (k : String) :
    dictHas (dictMerge d ps) k = (dictHas d k || ps.any (fun kv => kv.1 == k)) := by
  induction ps generalizing d with
  | nil => simp [dictMerge]
  | cons kv rest ih =>
      simp only [dictMerge, List.foldl_cons] at ih ⊢
      rw [ih (dictSet d kv.1 kv.2), dictHas_dictSet]
      cases h1 : (kv.1 == k) <;> cases h2 : dictHas d k <;> simp [h1, h2, List.any_cons]

theorem dictGet_dictMerge_of_not_mem (ps : List (String × PyVal)) (d : Dict) (k : String)
    (h : ∀ kv ∈ ps, kv.1 ≠ k) :
    dictGet (dictMerge d ps) k = dictGet d k := by
  induction ps generalizing d with
  | nil => simp [dictMerge]
  | cons kv rest ih =>
      simp only [dictMerge, List.foldl_cons] at ih ⊢
      rw [ih (dictSet d kv.1 kv.2) (fun x hx => h x (List.mem_cons_of_mem _ hx)),
        dictGet_dictSet_of_ne _ _ _ _ (h kv (List.mem_cons_self _ _))]

theorem dictGet_dictMerge_of_mem_nodup (ps : List (String × PyVal)) (d : Dict)
    (k : String) (v : PyVal) (hnd : (ps.map Prod.fst).Nodup) (hm : (k, v) ∈ ps) :
    dictGet (dictMerge d ps) k = Option.some v := by
  induction ps generalizing d with
  | nil => cases hm
  | cons kv rest ih =>
      simp only [List.map_cons, List.nodup_cons] at hnd
      rcases List.mem_cons.mp hm with heq | hmem
      · subst heq
        simp only [dictMerge, List.foldl_cons]
        have hrest : ∀ kv2 ∈ rest, kv2.1 ≠ k := by
          intro kv2 h2 hcontra
          have hmap := List.mem_map_of_mem Prod.fst h2
          rw [hcontra] at hmap
          exact hnd.1 hmap
        rw [show List.foldl (fun a kv => dictSet a kv.1 kv.2) (dictSet d k v) rest
              = dictMerge (dictSet d k v) rest from rfl,
          dictGet_dictMerge_of_not_mem _ _ _ hrest, dictGet_dictSet_self]
      · simp only [dictMerge, List.foldl_cons]
        exact ih (dictSet d kv.1 kv.2) hnd.2 hmem

/-- A stream event: a decoded JSON object, as yielded to the caller. -/
abbrev Event := Dict

/-- Terminality test from `_stream_task`:
`data.get("status") in ["completed", "error", "failed"]`. -/
def isTerminal (e : Event) : Bool :=
  match dictGet e "status" with
  | Option.some (PyVal.str s) => s == "completed" || s == "error" || s == "failed"
  | _ => false

/-- The three mandatory file-descriptor keys, in the order the code
checks them: `("filename", "content_type", "base64")`. -/
def requiredKeys : List String := ["filename", "content_type", "base64"]

/-- The keys absent from a candidate file descriptor:
`[k for k in ("filename", "content_type", "base64") if k not in item]`. -/
def missingKeys (d : Dict) : List String :=
  requiredKeys.filter (fun k => !dictHas d k)

/-- Python `repr` of a string (single-quoted; our keys need no escaping). -/
def pyStrRepr (s : String) : String := "\x27" ++ s ++ "\x27"

/-- Python `repr` of a list of strings, as interpolated into the
`missing keys` error message. -/
def pyListRepr (xs : List String) : String :=
  "[" ++ String.intercalate ", " (xs.map pyStrRepr) ++ "]"

/-- The `ValueError` message for a file dict with missing keys. -/
def missingKeysMsg (missing : List String) : String :=
  "Invalid file object, missing keys: " ++ pyListRepr missing

/-- The `ValueError` message for a `files` element that is neither a
string path nor a dict. -/
def badTypeMsg : String :=
  "`files` must be a list of file paths or dicts with filename/content_type/base64"

/-- The `ValueError` message for more than 10 prepared files. -/
def tooManyMsg : String := "Too many files: maximum is 10 per request."

/-- Python `s.startswith(pre)`, computed over the character lists (so
that concrete instances reduce inside the kernel): the first
`len(pre)` characters of `s` equal `pre`. -/
def strStartsWith (s pre : String) : Bool :=
  s.toList.take pre.toList.length == pre.toList

/-- One element of the `files` argument: a path string, a dict, or any
other Python value (which the code rejects). -/
inductive FileArg where
  | path : String → FileArg
  | dict : Dict → FileArg
  | other : PyVal → FileArg

/-- Modelled from the spec: the external collaborators used by
`_prepare_files`. `load_file_as_payload` and `compress_image` are
imported from `.utils` but are not present in the sources given
(`utils.py` only contains the Markdown-to-PDF converter), so they are
modelled per the spec as the file loader (`path -> File Descriptor`) and
the image compressor (`(path, max_dim, quality, convert_to_jpeg) ->
new_path`, may fail); both are taken to be available (the `is not None`
guards in the code pass). `guess_type` models
`mimetypes.guess_type(item)[0]`. -/
structure FileEnv where
  load_file_as_payload : String → Dict
  compress_image : String → Nat → Nat → Bool → Except String String
  guess_type : String → Option String

/-- The image-handling part of the client configuration
(`DuoScienceClient.__init__`). -/
structure ClientCfg where
  auto_compress_images : Bool
  image_max_dim : Nat
  image_quality : Nat
  convert_images_to_jpeg : Bool

/-- One iteration of the `for item in files` loop of `_prepare_files`:
paths go through optional image compression (falling back to the
original path on compression failure) and then the file loader; dicts
are validated for the three mandatory keys and passed through; anything
else is a `ValueError`. -/
def prepareOne (env : FileEnv) (cfg : ClientCfg) : FileArg → Except String Dict
  | .path item =>
      let path_to_use :=
        if cfg.auto_compress_images then
          let mime := (env.guess_type item).getD ""
          if strStartsWith mime "image/" then
            match env.compress_image item cfg.image_max_dim cfg.image_quality
                cfg.convert_images_to_jpeg with
            | .ok newPath => newPath
            | .error _ => item
          else item
        else item
      .ok (env.load_file_as_payload path_to_use)
  | .dict d =>
      if missingKeys d ≠ [] then .error (missingKeysMsg (missingKeys d))
      else .ok d
  | .other _ => .error badTypeMsg

/-- The whole `for item in files` loop: elements are processed in order
and the first `ValueError` aborts the call. -/
def prepareList (env : FileEnv) (cfg : ClientCfg) : List FileArg → Except String (List Dict)
  | [] => .ok []
  | item :: rest =>
      match prepareOne env cfg item with
      | .error m => .error m
      | .ok d =>
          match prepareList env cfg rest with
          | .error m => .error m
          | .ok ds => .ok (d :: ds)

/-- `DuoScienceClient._prepare_files`: `None` (or an empty list, both
falsy) gives `None`; otherwise the elements are normalized in order and
the result must not exceed 10 descriptors. -/
def prepare_files (env : FileEnv) (cfg : ClientCfg) (files : Option (List FileArg)) :
    Except String (Option (List Dict)) :=
  match files with
  | Option.none => .ok Option.none
  | Option.some fs =>
      if fs.isEmpty then .ok Option.none
      else
        match prepareList env cfg fs with
        | .error m => .error m
        | .ok prepared =>
            if prepared.length > 10 then .error tooManyMsg
            else .ok (Option.some prepared)

/-- The response object returned by `requests.post`. `jsonBody` models
`response.json()` (`Except.error` when the body is not JSON, in which
case `requests` raises a `JSONDecodeError`, a `RequestException`);
`http_error_text` is the message of the `HTTPError` that
`raise_for_status` raises for a 4xx/5xx status (text produced by the
`requests` library from the status code, reason and URL). -/
structure HttpResponse where
  status_code : Nat
  text : String
  jsonBody : Except String Dict
  http_error_text : String

/-- The outcome of `requests.post(start_url, ...)`: either a raised
transport-level `RequestException` or a response object. -/
inductive PostOutcome where
  | raises : String → PostOutcome
  | returns : HttpResponse → PostOutcome

/-- The message of the builtin `ConnectionError` raised when the server
accepted the task (HTTP 202) without a usable `task_id`. -/
def noTaskIdMsg : String :=
  "API Error: Server accepted the task but did not return a task_id."

/-- The message of the builtin `ConnectionError` raised for a response
status other than 202 that `raise_for_status` let through. -/
def failedStartMsg (status : Nat) (body : String) : String :=
  "API Error: Failed to start task. Status: " ++ toString status ++ ", Body: " ++ body

/-- The single error event yielded when task initiation fails with a
`requests.exceptions.RequestException`
(`\x7b"status": "error", "message": f"Connection Error: ..."\x7d`). -/
def initErrorEvent (m : String) : Event :=
  [("status", PyVal.str "error"),
   ("message", PyVal.str ("Connection Error: Failed to start task. " ++ m))]

/-- The single synthetic error event yielded when the streaming phase
raises (`\x7b"status": "error", "message": f"Streaming Error: ..."\x7d`). -/
def streamErrorEvent (m : String) : Event :=
  [("status", PyVal.str "error"),
   ("message", PyVal.str ("Streaming Error: The connection was lost. " ++ m))]

/-- Outcome of Step 1 of `_stream_task`. The decisive point: the
`except` clause catches only `requests.exceptions.RequestException`,
while the two `raise ConnectionError(...)` statements raise the
*builtin* `ConnectionError`, which is an `OSError` sibling of
`RequestException`, not a subclass — so those exceptions `escape` the
generator to the caller instead of becoming a yielded event. -/
inductive InitOutcome where
  | caught : Event → InitOutcome
  | escaped : String → InitOutcome
  | ok : PyVal → InitOutcome

/-- Step 1 of `_stream_task`: POST, `raise_for_status`, check for 202
and a truthy `task_id`. -/
def initPhase (post : PostOutcome) : InitOutcome :=
  match post with
  | .raises m => .caught (initErrorEvent m)
  | .returns r =>
      if 400 ≤ r.status_code then .caught (initErrorEvent r.http_error_text)
      else if r.status_code == 202 then
        match r.jsonBody with
        | .error m => .caught (initErrorEvent m)
        | .ok body =>
            match dictGet body "task_id" with
            | Option.none => .escaped noTaskIdMsg
            | Option.some v => if pyTruthy v then .ok v else .escaped noTaskIdMsg
      else .escaped (failedStartMsg r.status_code r.text)

/-- `json.loads` on a message's `data` field, as an oracle: either the
decoded event or the message of the raised `JSONDecodeError`. -/
abbrev Decoder := String → Except String Event

/-- How the SSE iteration ends once the delivered messages run out:
the iterator is exhausted (the `for` loop ends normally), or the next
pull raises (connection lost, failed reconnect, ...). -/
inductive StreamEnd where
  | exhausts : StreamEnd
  | raises : String → StreamEnd

/-- The observable behaviour of the SSE transport for one invocation:
whether `SSEClient(stream_url)` itself raises, the `data` payloads of
the messages it delivers in order, and how the iteration ends after
them. -/
structure StreamBehavior where
  connect : Except String Unit
  msgs : List String
  ending : StreamEnd

/-- The `for event in client` loop of `_stream_task`: skip empty
payloads (heartbeats), decode, yield, and `break` after a terminal
status; any exception (decode failure or a raising pull) is caught by
`except Exception` and converted into one final synthetic error
event. -/
def consume (d : Decoder) : List String → StreamEnd → List Event
  | [], .exhausts => []
  | [], .raises m => [streamErrorEvent m]
  | s :: rest, ending =>
      if s == "" then consume d rest ending
      else
        match d s with
        | .error m => [streamErrorEvent m]
        | .ok ev => if isTerminal ev then [ev] else ev :: consume d rest ending

/-- Step 2 of `_stream_task`: connect to the stream and consume it; a
failure to connect is also caught by `except Exception`. -/
def streamPhase (d : Decoder) (sb : StreamBehavior) : List Event :=
  match sb.connect with
  | .error m => [streamErrorEvent m]
  | .ok _ => consume d sb.msgs sb.ending

/-- What the caller of the `_stream_task` generator observes: either an
exception raised out of the generator (before anything was yielded —
the only escaping raise sites run before the first `yield`), or the
complete finite sequence of yielded events. -/
inductive StreamTaskResult where
  | raised : String → StreamTaskResult
  | events : List Event → StreamTaskResult

/-- `DuoScienceClient._stream_task`, composed from the two phases. -/
def streamTask (post : PostOutcome) (d : Decoder) (sb : StreamBehavior) :
    StreamTaskResult :=
  match initPhase post with
  | .caught e => .events [e]
  | .escaped m => .raised m
  | .ok _taskId => .events (streamPhase d sb)

/-- `if content is not None: payload["content"] = content` — an
explicitly passed empty string is still written. -/
def contentStep (content : Option String) (payload : Dict) : Dict :=
  match content with
  | Option.some c => dictSet payload "content" (PyVal.str c)
  | Option.none => payload

/-- `if prepared_files: payload["files"] = prepared_files` — a `None`
or empty prepared list is falsy and leaves the payload untouched. -/
def filesStep (prepared_files : Option (List Dict)) (payload : Dict) : Dict :=
  match prepared_files with
  | Option.some l =>
      if !l.isEmpty then dictSet payload "files" (PyVal.list (l.map PyVal.dict))
      else payload
  | Option.none => payload

/-- The payload construction shared verbatim by `chat`, `research` and
`hypotheses`:
`payload = \x7b"user_id": user_id, "chat_id": chat_id, **kwargs\x7d`,
then the content step, then `_prepare_files` and the files step. In the
source the dict display and content step run before `_prepare_files`;
as both are pure, evaluating `_prepare_files` first is value-equal,
and a `ValueError` from it yields the same `Except.error`. -/
def composePayload (env : FileEnv) (cfg : ClientCfg) (user_id chat_id : String)
    (content : Option String) (files : Option (List FileArg))
    (kwargs : List (String × PyVal)) : Except String Dict :=
  match prepare_files env cfg files with
  | .error m => .error m
  | .ok prepared_files =>
      .ok (filesStep prepared_files (contentStep content
        (dictLit (("user_id", PyVal.str user_id) ::
          ("chat_id", PyVal.str chat_id) :: kwargs))))

/-- `DuoScienceClient.chat`: compose the payload (raising any
`ValueError` from `_prepare_files` synchronously, before any network
use), then run `_stream_task` on the `/chat/` endpoint. The result
records the wire payload next to the observed stream outcome. -/
def chat (env : FileEnv) (cfg : ClientCfg) (user_id chat_id : String)
    (content : Option String) (files : Option (List FileArg))
    (kwargs : List (String × PyVal)) (post : PostOutcome) (d : Decoder)
    (sb : StreamBehavior) : Except String (Dict × StreamTaskResult) :=
  match composePayload env cfg user_id chat_id content files kwargs with
  | .error m => .error m
  | .ok payload => .ok (payload, streamTask post d sb)

/-- `DuoScienceClient.research`: identical to `chat` up to the endpoint
path (`/research/`). -/
def research (env : FileEnv) (cfg : ClientCfg) (user_id chat_id : String)
    (content : Option String) (files : Option (List FileArg))
    (kwargs : List (String × PyVal)) (post : PostOutcome) (d : Decoder)
    (sb : StreamBehavior) : Except String (Dict × StreamTaskResult) :=
  match composePayload env cfg user_id chat_id content files kwargs with
  | .error m => .error m
  | .ok payload => .ok (payload, streamTask post d sb)

/-- `DuoScienceClient.hypotheses`: identical to `chat` up to the
endpoint path (`/hypotheses/`). -/
def hypotheses (env : FileEnv) (cfg : ClientCfg) (user_id chat_id : String)
    (content : Option String) (files : Option (List FileArg))
    (kwargs : List (String × PyVal)) (post : PostOutcome) (d : Decoder)
    (sb : StreamBehavior) : Except String (Dict × StreamTaskResult) :=
  match composePayload env cfg user_id chat_id content files kwargs with
  | .error m => .error m
  | .ok payload => .ok (payload, streamTask post d sb)

/-- The JSON-decoded events of the non-empty messages of a stream, in
arrival order (the reference sequence the consumer is compared to). -/
def okEvents (d : Decoder) : List String → List Event
  | [] => []
  | s :: rest =>
      if s == "" then okEvents d rest
      else
        match d s with
        | .ok ev => ev :: okEvents d rest
        | .error _ => okEvents d rest

/-- Truncation of an event list up to and including its first
terminal-status event. -/
def truncAtTerminal : List Event → List Event
  | [] => []
  | e :: rest => if isTerminal e then [e] else e :: truncAtTerminal rest

/-- A `files` element that `_prepare_files` accepts without raising: a
path string, or a dict carrying all three mandatory keys. -/
def validArg : FileArg → Bool
  | .path _ => true
  | .dict d => (missingKeys d).isEmpty
  | .other _ => false

/-- Fixture: a collaborator environment whose loader returns a plain
text descriptor and whose compressor always fails. -/
def envFix : FileEnv :=
  ⟨fun p => [("filename", PyVal.str p), ("content_type", PyVal.str "text/plain"),
     ("base64", PyVal.str "AA==")],
   fun _ _ _ _ => Except.error "compressor unavailable",
   fun _ => Option.none⟩

/-- Fixture: an environment where every path looks like a PNG image and
compression always fails, exercising the fallback branch. -/
def envImgFail : FileEnv :=
  ⟨fun p => [("filename", PyVal.str p), ("content_type", PyVal.str "image/png"),
     ("base64", PyVal.str "AA==")],
   fun _ _ _ _ => Except.error "no space left on device",
   fun _ => Option.some "image/png"⟩

/-- Fixture: the default client configuration
(`auto_compress_images=True, image_max_dim=1280, image_quality=80,
convert_images_to_jpeg=True`). -/
def cfgFix : ClientCfg := ⟨true, 1280, 80, true⟩

/-- Fixture: a decoder recognizing three message payloads. -/
def dW : Decoder := fun s =>
  if s == "R" then Except.ok [("status", PyVal.str "running")]
  else if s == "C" then Except.ok [("status", PyVal.str "completed")]
  else if s == "Z" then Except.ok [("note", PyVal.str "late")]
  else Except.error "Expecting value: line 1 column 1 (char 0)"

/-- Fixture: a POST that fails at transport level. -/
def postFix : PostOutcome := PostOutcome.raises "connection refused"

/-- Fixture: an accepted initiation (HTTP 202 with a `task_id`). -/
def acceptedPost : PostOutcome :=
  PostOutcome.returns ⟨202, "", Except.ok [("task_id", PyVal.str "t1")], ""⟩

/-- Fixture: an empty stream that ends by exhaustion. -/
def sbFix : StreamBehavior := ⟨Except.ok (), [], StreamEnd.exhausts⟩

theorem dictHas_dictSet_self (d : Dict) (k : String) (v : PyVal) :
    dictHas (dictSet d k v) k = true := by
  rw [dictHas_dictSet]; simp

theorem dictHas_dictSet_of_ne (d : Dict) (a k : String) (v : PyVal) (h : a ≠ k) :
    dictHas (dictSet d a v) k = dictHas d k := by
  rw [dictHas_dictSet]
  have : (a == k) = false := by simpa using h
  simp [this]

theorem dictGet_contentStep_of_ne (ct : Option String) (d : Dict) (k : String)
    (hk : k ≠ "content") : dictGet (contentStep ct d) k = dictGet d k := by
  cases ct with
  | none => rfl
  | some c => exact dictGet_dictSet_of_ne d "content" k (PyVal.str c) (Ne.symm hk)

theorem dictGet_filesStep_of_ne (pf : Option (List Dict)) (d : Dict) (k : String)
    (hk : k ≠ "files") : dictGet (filesStep pf d) k = dictGet d k := by
  cases pf with
  | none => rfl
  | some l =>
      by_cases hl : l.isEmpty
      · simp [filesStep, hl]
      · simp only [filesStep, hl, Bool.not_false]
        simp only [List.isEmpty_eq_false] at hl
        simp [hl]
        exact dictGet_dictSet_of_ne d "files" k _ (Ne.symm hk)

theorem dictHas_contentStep_of_ne (ct : Option String) (d : Dict) (k : String)
    (hk : k ≠ "content") : dictHas (contentStep ct d) k = dictHas d k := by
  cases ct with
  | none => rfl
  | some c => exact dictHas_dictSet_of_ne d "content" k (PyVal.str c) (Ne.symm hk)

theorem dictHas_filesStep_of_ne (pf : Option (List Dict)) (d : Dict) (k : String)
    (hk : k ≠ "files") : dictHas (filesStep pf d) k = dictHas d k := by
  cases pf with
  | none => rfl
  | some l =>
      by_cases hl : l.isEmpty
      · simp [filesStep, hl]
      · simp only [filesStep, hl, Bool.not_false]
        simp only [List.isEmpty_eq_false] at hl
        simp [hl]
        exact dictHas_dictSet_of_ne d "files" k _ (Ne.symm hk)

theorem composePayload_ok_build (env : FileEnv) (cfg : ClientCfg) (u c : String)
    (ct : Option String) (fls : Option (List FileArg)) (kw : List (String × PyVal))
    (p : Dict) (h : composePayload env cfg u c ct fls kw = Except.ok p) :
    ∃ pf, prepare_files env cfg fls = Except.ok pf ∧
      p = filesStep pf (contentStep ct
        (dictLit (("user_id", PyVal.str u) :: ("chat_id", PyVal.str c) :: kw))) := by
  unfold composePayload at h
  cases hpf : prepare_files env cfg fls with
  | error m => rw [hpf] at h; cases h
  | ok pf =>
      rw [hpf] at h
      exact ⟨pf, rfl, (Except.ok.injEq _ _ ▸ h).symm⟩

theorem prepareOne_ok_of_valid (env : FileEnv) (cfg : ClientCfg) (x : FileArg)
    (h : validArg x = true) : ∃ d, prepareOne env cfg x = Except.ok d := by
  cases x with
  | path p => exact ⟨_, rfl⟩
  | dict d =>
      have hm : missingKeys d = [] := by
        simpa [validArg, List.isEmpty_iff] using h
      exact ⟨d, by simp [prepareOne, hm]⟩
  | other v => simp [validArg] at h

theorem prepareList_valid (env : FileEnv) (cfg : ClientCfg) (fs : List FileArg)
    (h : ∀ x ∈ fs, validArg x = true) :
    ∃ l, prepareList env cfg fs = Except.ok l ∧ l.length = fs.length := by
  induction fs with
  | nil => exact ⟨[], rfl, rfl⟩
  | cons x rest ih =>
      obtain ⟨d, hd⟩ := prepareOne_ok_of_valid env cfg x (h x (List.mem_cons_self _ _))
      obtain ⟨l, hl, hlen⟩ := ih (fun y hy => h y (List.mem_cons_of_mem _ hy))
      exact ⟨d :: l, by simp [prepareList, hd, hl], by simp [hlen]⟩

theorem prepareList_error (env : FileEnv) (cfg : ClientCfg) (pre : List FileArg)
    (x : FileArg) (rest : List FileArg) (m : String)
    (hpre : ∀ a ∈ pre, validArg a = true) (hx : prepareOne env cfg x = Except.error m) :
    prepareList env cfg (pre ++ x :: rest) = Except.error m := by
  induction pre with
  | nil => simp [prepareList, hx]
  | cons a pre2 ih =>
      obtain ⟨d, hd⟩ := prepareOne_ok_of_valid env cfg a (hpre a (List.mem_cons_self _ _))
      have h2 := ih (fun y hy => hpre y (List.mem_cons_of_mem _ hy))
      simp [prepareList, hd, h2]

theorem prepareList_ok_pointwise (env : FileEnv) (cfg : ClientCfg) :
    ∀ (fs : List FileArg) (l : List Dict), prepareList env cfg fs = Except.ok l →
      l.length = fs.length ∧
      ∀ (i : Nat) (x : FileArg), fs[i]? = Option.some x →
        ∃ d, prepareOne env cfg x = Except.ok d ∧ l[i]? = Option.some d := by
  intro fs
  induction fs with
  | nil =>
      intro l hl
      simp only [prepareList] at hl
      cases hl
      simp
  | cons x rest ih =>
      intro l hl
      simp only [prepareList] at hl
      cases h1 : prepareOne env cfg x with
      | error m => rw [h1] at hl; cases hl
      | ok d =>
          rw [h1] at hl
          cases h2 : prepareList env cfg rest with
          | error m => rw [h2] at hl; cases hl
          | ok ds =>
              rw [h2] at hl
              cases hl
              obtain ⟨hlen, hpt⟩ := ih ds h2
              refine ⟨by simp [hlen], ?_⟩
              intro i y hy
              cases i with
              | zero =>
                  simp only [List.getElem?_cons_zero, Option.some.injEq] at hy
                  subst hy
                  exact ⟨d, h1, by simp⟩
              | succ j =>
                  simp only [List.getElem?_cons_succ] at hy ⊢
                  exact hpt j y hy

theorem consume_append_ok (d : Decoder) (msgs tail : List String) (ending : StreamEnd)
    (h : ∀ s ∈ msgs, s ≠ "" → ∃ ev, d s = Except.ok ev ∧ isTerminal ev = false) :
    consume d (msgs ++ tail) ending = okEvents d msgs ++ consume d tail ending := by
  induction msgs with
  | nil => simp [okEvents]
  | cons s rest ih =>
      have ih2 := ih (fun y hy hne => h y (List.mem_cons_of_mem _ hy) hne)
      by_cases hs : s = ""
      · subst hs
        simpa [consume, okEvents] using ih2
      · obtain ⟨ev, hev, hterm⟩ := h s (List.mem_cons_self _ _) hs
        have hs2 : (s == "") = false := by simpa using hs
        simpa [consume, okEvents, hs2, hev, hterm] using ih2

/-- C1: the claim says a task invocation either raises a validation
fault before any network I/O or yields a finite sequence ending in one
terminal-status event, never raising after the payload was accepted for
send. The code violates this: for an initiation response with HTTP
status 200 (a non-202 status below 400, so `raise_for_status` does not
intervene) the generator raises the *builtin* `ConnectionError` — which
the `except requests.exceptions.RequestException` clause does not
catch — out to the caller, with nothing yielded. This theorem evaluates
the code at that failing input: composition succeeds (no validation
fault), yet the stream result is a raised exception, for every decoder
and stream behaviour. -/
theorem c1_code_evaluation (d : Decoder) (sb : StreamBehavior) :
    chat envFix cfgFix "u1" "s1" (Option.some "hello") Option.none []
      (PostOutcome.returns ⟨200, "ok", Except.ok [], ""⟩) d sb
      = Except.ok ([("user_id", PyVal.str "u1"), ("chat_id", PyVal.str "s1"),
          ("content", PyVal.str "hello")],
        StreamTaskResult.raised (failedStartMsg 200 "ok")) := rfl

/-- C2: the claim says any non-202 initiation status (including generic
success such as 200) yields exactly one error event carrying the status
code and body. The code violates this for non-error statuses: the
message carrying status and body is wrapped in a builtin
`ConnectionError` that escapes the generator instead of being caught
and yielded. This theorem evaluates the code at HTTP 200: the caller
gets a raised exception (whose message does carry status and body), not
a yielded event. -/
theorem c2_code_evaluation (d : Decoder) (sb : StreamBehavior) :
    streamTask (PostOutcome.returns
        ⟨200, "task accepted", Except.ok [("task_id", PyVal.str "t1")], ""⟩) d sb
      = StreamTaskResult.raised (failedStartMsg 200 "task accepted") := rfl

/-- C3: the claim says an HTTP 202 response without a non-empty
`task_id` yields exactly one error event. The code violates this: the
builtin `ConnectionError` raised for the missing (or empty) handle is
not caught by the `except requests.exceptions.RequestException` clause
and escapes the generator to the caller. This theorem evaluates the
code at both failing inputs (no `task_id` key; empty `task_id`). -/
theorem c3_code_evaluation (d : Decoder) (sb : StreamBehavior) :
    streamTask (PostOutcome.returns ⟨202, "null", Except.ok [], ""⟩) d sb
      = StreamTaskResult.raised noTaskIdMsg
    ∧ streamTask (PostOutcome.returns
        ⟨202, "", Except.ok [("task_id", PyVal.str "")], ""⟩) d sb
      = StreamTaskResult.raised noTaskIdMsg := ⟨rfl, rfl⟩

/-- C4 counterexample: the claim says the stream closing before any
terminal-status event causes exactly one additional synthetic error
event. In the code the `for event in client` loop simply ends when the
iterator is exhausted and the generator returns: in this concrete run
the task is accepted, one non-terminal `running` event is delivered,
the iterator then ends — and the yielded sequence is exactly that one
non-terminal event, with no synthetic error event. -/
theorem c4_counterexample :
    streamTask acceptedPost dW ⟨Except.ok (), ["R"], StreamEnd.exhausts⟩
      = StreamTaskResult.events [[("status", PyVal.str "running")]]
    ∧ isTerminal [("status", PyVal.str "running")] = false := ⟨rfl, rfl⟩

/-- C4 (amended): every stream-level fault that surfaces as an
exception — a raising pull (connection loss), a JSON decode failure of
a non-empty message, or a failure to open the stream connection —
causes exactly one synthetic error event with status "error" to be
yielded after the decoded non-terminal events, with nothing after it;
but if the message iterator ends without raising before any terminal
event, no synthetic event is added and the sequence simply ends. -/
theorem c4_amended_theorem (d : Decoder) (msgs : List String)
    (h : ∀ s ∈ msgs, s ≠ "" → ∃ ev, d s = Except.ok ev ∧ isTerminal ev = false) :
    (∀ m, consume d msgs (StreamEnd.raises m) = okEvents d msgs ++ [streamErrorEvent m])
    ∧ (∀ (bad m : String) (rest : List String) (ending : StreamEnd), bad ≠ "" →
        d bad = Except.error m →
        consume d (msgs ++ bad :: rest) ending = okEvents d msgs ++ [streamErrorEvent m])
    ∧ consume d msgs StreamEnd.exhausts = okEvents d msgs
    ∧ (∀ (m : String) (sb : StreamBehavior), sb.connect = Except.error m →
        streamPhase d sb = [streamErrorEvent m]) := by
  refine ⟨?_, ?_, ?_, ?_⟩
  · intro m
    have hx := consume_append_ok d msgs [] (StreamEnd.raises m) h
    simpa [consume] using hx
  · intro bad m rest ending hbad hdm
    have hx := consume_append_ok d msgs (bad :: rest) ending h
    have hbad2 : (bad == "") = false := by simpa using hbad
    rw [hx]
    simp [consume, hbad2, hdm]
  · have hx := consume_append_ok d msgs [] StreamEnd.exhausts h
    simpa [consume] using hx
  · intro m sb hc
    simp [streamPhase, hc]

/-- C5: for a pushed message sequence whose non-empty payloads all
decode, the yielded events are exactly the decoded contents of the
non-empty messages, in arrival order, truncated after (and including)
the first terminal-status event; empty keep-alive messages are never
yielded and never count toward termination, and nothing is yielded
after the first terminal event (so the tail of the stream and its end
behaviour are irrelevant once a terminal event occurred). -/
theorem c5_theorem (d : Decoder) (msgs : List String) (ending : StreamEnd)
    (hok : ∀ s ∈ msgs, s ≠ "" → (d s).isOk = true)
    (hterm : (okEvents d msgs).any isTerminal = true) :
    consume d msgs ending = truncAtTerminal (okEvents d msgs) := by
  induction msgs with
  | nil => simp [okEvents] at hterm
  | cons s rest ih =>
      by_cases hs : s = ""
      · subst hs
        have hok2 : ∀ y ∈ rest, y ≠ "" → (d y).isOk = true :=
          fun y hy => hok y (List.mem_cons_of_mem _ hy)
        have hterm2 : (okEvents d rest).any isTerminal = true := by
          simpa [okEvents] using hterm
        simpa [consume, okEvents] using ih hok2 hterm2
      · have hs2 : (s == "") = false := by simpa using hs
        have hoks := hok s (List.mem_cons_self _ _) hs
        cases hev : d s with
        | error m => rw [hev] at hoks; simp [Except.isOk, Except.toBool] at hoks
        | ok ev =>
            cases hT : isTerminal ev with
            | true => simp [consume, okEvents, hs2, hev, truncAtTerminal, hT]
            | false =>
                have hok2 : ∀ y ∈ rest, y ≠ "" → (d y).isOk = true :=
                  fun y hy => hok y (List.mem_cons_of_mem _ hy)
                have hterm2 : (okEvents d rest).any isTerminal = true := by
                  simpa [okEvents, hs2, hev, hT] using hterm
                simp only [consume, okEvents, hs2, hev, truncAtTerminal, hT,
                  Bool.false_eq_true, if_false]
                exact congrArg (ev :: ·) (ih hok2 hterm2)

/-- C6: file validation faults are raised synchronously by composition,
before any network call. If the first offending element of `files` is a
dict missing mandatory keys, composition fails with the `ValueError`
naming exactly the missing keys; if it is neither a path string nor a
dict, composition fails with the type `ValueError`; if all elements are
acceptable but more than 10 descriptors result, composition fails with
the "too many files" `ValueError`. Whenever `_prepare_files` raises,
`chat`, `research` and `hypotheses` all fail with that very fault, for
every possible network behaviour — no network call can be involved. -/
theorem c6_theorem :
    (∀ (env : FileEnv) (cfg : ClientCfg) (pre : List FileArg) (dd : Dict)
        (rest : List FileArg), (∀ a ∈ pre, validArg a = true) → missingKeys dd ≠ [] →
        prepare_files env cfg (Option.some (pre ++ FileArg.dict dd :: rest))
          = Except.error (missingKeysMsg (missingKeys dd)))
    ∧ (∀ (env : FileEnv) (cfg : ClientCfg) (pre : List FileArg) (v : PyVal)
        (rest : List FileArg), (∀ a ∈ pre, validArg a = true) →
        prepare_files env cfg (Option.some (pre ++ FileArg.other v :: rest))
          = Except.error badTypeMsg)
    ∧ (∀ (env : FileEnv) (cfg : ClientCfg) (fs : List FileArg),
        (∀ a ∈ fs, validArg a = true) → 10 < fs.length →
        prepare_files env cfg (Option.some fs) = Except.error tooManyMsg)
    ∧ (∀ (env : FileEnv) (cfg : ClientCfg) (u c : String) (ct : Option String)
        (fls : Option (List FileArg)) (kw : List (String × PyVal)) (m : String)
        (post : PostOutcome) (d : Decoder) (sb : StreamBehavior),
        prepare_files env cfg fls = Except.error m →
        chat env cfg u c ct fls kw post d sb = Except.error m
        ∧ research env cfg u c ct fls kw post d sb = Except.error m
        ∧ hypotheses env cfg u c ct fls kw post d sb = Except.error m) := by
  refine ⟨?_, ?_, ?_, ?_⟩
  · intro env cfg pre dd rest hpre hmiss
    have hone : prepareOne env cfg (FileArg.dict dd)
        = Except.error (missingKeysMsg (missingKeys dd)) := by
      simp [prepareOne, hmiss]
    have hlist := prepareList_error env cfg pre _ rest _ hpre hone
    have hne : (pre ++ FileArg.dict dd :: rest).isEmpty = false := by
      cases pre <;> rfl
    simp [prepare_files, hne, hlist]
  · intro env cfg pre v rest hpre
    have hone : prepareOne env cfg (FileArg.other v) = Except.error badTypeMsg := rfl
    have hlist := prepareList_error env cfg pre _ rest _ hpre hone
    have hne : (pre ++ FileArg.other v :: rest).isEmpty = false := by
      cases pre <;> rfl
    simp [prepare_files, hne, hlist]
  · intro env cfg fs hvalid hlen
    obtain ⟨l, hl, hlel⟩ := prepareList_valid env cfg fs hvalid
    have hne : fs.isEmpty = false := by
      cases fs with
      | nil => simp at hlen
      | cons a t => rfl
    have hgt : l.length > 10 := by rw [hlel]; exact hlen
    simp [prepare_files, hne, hl, hgt]
  · intro env cfg u c ct fls kw m post d sb hprep
    refine ⟨?_, ?_, ?_⟩ <;> simp [chat, research, hypotheses, composePayload, hprep]

/-- C7 counterexample: the claim says the composed wire payload always
contains identity fields named `user_id` and `session_id`. The code
names the second identity field `chat_id`: in this concrete invocation
the composed payload has no `session_id` key at all, while `chat_id` is
present. -/
theorem c7_counterexample :
    chat envFix cfgFix "u1" "c1" Option.none Option.none [] postFix dW sbFix
      = Except.ok ([("user_id", PyVal.str "u1"), ("chat_id", PyVal.str "c1")],
          StreamTaskResult.events [initErrorEvent "connection refused"])
    ∧ dictHas [("user_id", PyVal.str "u1"), ("chat_id", PyVal.str "c1")] "session_id"
        = false
    ∧ dictHas [("user_id", PyVal.str "u1"), ("chat_id", PyVal.str "c1")] "chat_id"
        = true := ⟨rfl, rfl, rfl⟩

/-- C7 (amended): the composed wire payload always contains the two
required identity fields named `user_id` and `chat_id` (the session
identity travels as `chat_id`, not `session_id`); the `content` key is
present exactly when a content value was explicitly passed (an
explicitly passed empty string is still included); and the `files` key
is omitted when no files are provided. Keyword options cannot be named
`content` or `files` (they would bind to the named parameters), which
the hypothesis records. -/
theorem c7_amended_theorem (env : FileEnv) (cfg : ClientCfg) (u c : String)
    (content : Option String) (files : Option (List FileArg))
    (kw : List (String × PyVal)) (p : Dict)
    (hkw : ∀ kv ∈ kw, kv.1 ≠ "content" ∧ kv.1 ≠ "files")
    (h : composePayload env cfg u c content files kw = Except.ok p) :
    dictHas p "user_id" = true ∧ dictHas p "chat_id" = true
    ∧ dictHas p "content" = content.isSome
    ∧ ((files = Option.none ∨ files = Option.some []) → dictHas p "files" = false) := by
  obtain ⟨pf, hpf, hp⟩ := composePayload_ok_build env cfg u c content files kw p h
  subst hp
  have hbase_has : ∀ k : String,
      dictHas (dictLit (("user_id", PyVal.str u) :: ("chat_id", PyVal.str c) :: kw)) k
        = (("user_id" == k) || (("chat_id" == k) || kw.any (fun kv => kv.1 == k))) := by
    intro k
    rw [dictLit, dictHas_dictMerge]
    rfl
  have hkc : kw.any (fun kv => kv.1 == "content") = false := by
    simp only [List.any_eq_false]
    intro kv hkv
    simpa using (hkw kv hkv).1
  have hkf : kw.any (fun kv => kv.1 == "files") = false := by
    simp only [List.any_eq_false]
    intro kv hkv
    simpa using (hkw kv hkv).2
  refine ⟨?_, ?_, ?_, ?_⟩
  · rw [dictHas_filesStep_of_ne _ _ _ (by decide),
      dictHas_contentStep_of_ne _ _ _ (by decide), hbase_has]
    simp
  · rw [dictHas_filesStep_of_ne _ _ _ (by decide),
      dictHas_contentStep_of_ne _ _ _ (by decide), hbase_has]
    simp
  · rw [dictHas_filesStep_of_ne _ _ _ (by decide)]
    cases content with
    | some cv =>
        show dictHas (dictSet _ "content" (PyVal.str cv)) "content" = true
        exact dictHas_dictSet_self _ _ _
    | none =>
        show dictHas (dictLit _) "content" = false
        rw [hbase_has, hkc]
        decide
  · intro hfs
    have hpfn : pf = Option.none := by
      rcases hfs with hfs | hfs <;> rw [hfs] at hpf <;>
        simpa [prepare_files] using hpf.symm
    subst hpfn
    show dictHas (contentStep content _) "files" = false
    rw [dictHas_contentStep_of_ne _ _ _ (by decide), hbase_has, hkf]
    decide

/-- C8: for a path element of `files` whose guessed MIME type is an
image, with auto-compression enabled, a failure of the external
`compress_image` step never aborts the request: the descriptor is
loaded from the original path, exactly as if compression had not been
attempted (same result as with `auto_compress_images=False`). -/
theorem c8_theorem (env : FileEnv) (cfg : ClientCfg) (p mime e : String)
    (hauto : cfg.auto_compress_images = true)
    (hmime : env.guess_type p = Option.some mime)
    (himg : strStartsWith mime "image/" = true)
    (hfail : env.compress_image p cfg.image_max_dim cfg.image_quality
        cfg.convert_images_to_jpeg = Except.error e) :
    prepareOne env cfg (FileArg.path p) = Except.ok (env.load_file_as_payload p)
    ∧ prepareOne env cfg (FileArg.path p)
        = prepareOne env { cfg with auto_compress_images := false } (FileArg.path p) := by
  constructor <;> simp [prepareOne, hauto, hmime, himg, hfail]

theorem research_eq_chat : @research = @chat := rfl

theorem hypotheses_eq_chat : @hypotheses = @chat := rfl

theorem chat_ok_payload (env : FileEnv) (cfg : ClientCfg) (u c : String)
    (ct : Option String) (fls : Option (List FileArg)) (kw : List (String × PyVal))
    (post : PostOutcome) (d : Decoder) (sb : StreamBehavior) (p : Dict)
    (r : StreamTaskResult)
    (h : chat env cfg u c ct fls kw post d sb = Except.ok (p, r)) :
    composePayload env cfg u c ct fls kw = Except.ok p := by
  unfold chat at h
  cases hcp : composePayload env cfg u c ct fls kw with
  | error m => rw [hcp] at h; cases h
  | ok q =>
      rw [hcp] at h
      cases h
      rfl

theorem composePayload_get_kw (env : FileEnv) (cfg : ClientCfg) (u c : String)
    (ct : Option String) (fls : Option (List FileArg)) (kw : List (String × PyVal))
    (p : Dict) (k : String) (v : PyVal)
    (hk1 : k ≠ "content") (hk2 : k ≠ "files")
    (hnd : (kw.map Prod.fst).Nodup) (hmem : (k, v) ∈ kw)
    (h : composePayload env cfg u c ct fls kw = Except.ok p) :
    dictGet p k = Option.some v := by
  obtain ⟨pf, hpf, hp⟩ := composePayload_ok_build env cfg u c ct fls kw p h
  subst hp
  rw [dictGet_filesStep_of_ne _ _ _ hk2, dictGet_contentStep_of_ne _ _ _ hk1]
  rw [show dictLit (("user_id", PyVal.str u) :: ("chat_id", PyVal.str c) :: kw)
      = dictMerge (dictMerge [] [("user_id", PyVal.str u), ("chat_id", PyVal.str c)]) kw
      from rfl]
  exact dictGet_dictMerge_of_mem_nodup kw _ k v hnd hmem

theorem composePayload_get_content (env : FileEnv) (cfg : ClientCfg) (u c s : String)
    (fls : Option (List FileArg)) (kw : List (String × PyVal)) (p : Dict)
    (h : composePayload env cfg u c (Option.some s) fls kw = Except.ok p) :
    dictGet p "content" = Option.some (PyVal.str s) := by
  obtain ⟨pf, hpf, hp⟩ := composePayload_ok_build env cfg u c (Option.some s) fls kw p h
  subst hp
  rw [dictGet_filesStep_of_ne _ _ _ (by decide)]
  exact dictGet_dictSet_self _ _ _

theorem composePayload_get_files (env : FileEnv) (cfg : ClientCfg) (u c : String)
    (ct : Option String) (fls : Option (List FileArg)) (kw : List (String × PyVal))
    (p : Dict) (l : List Dict)
    (hpfl : prepare_files env cfg fls = Except.ok (Option.some l))
    (hl : l.isEmpty = false)
    (h : composePayload env cfg u c ct fls kw = Except.ok p) :
    dictGet p "files" = Option.some (PyVal.list (l.map PyVal.dict)) := by
  obtain ⟨pf, hpf, hp⟩ := composePayload_ok_build env cfg u c ct fls kw p h
  rw [hpfl] at hpf
  cases hpf
  subst hp
  show dictGet (filesStep (Option.some l) _) "files" = _
  simp only [filesStep, hl, Bool.not_false, if_true]
  exact dictGet_dictSet_self _ _ _

/-- C9: the payload merge order in `chat`, `research` and `hypotheses`
is fixed: keyword options are merged after the identity fields, so a
keyword option named `user_id` or `chat_id` overwrites the identity
argument's value in the wire payload, while the explicit `content` and
`files` parameters are written after the keyword-option merge and
therefore overwrite any keyword option of the same name. -/
theorem c9_theorem :
    (∀ (env : FileEnv) (cfg : ClientCfg) (u c : String) (v : PyVal)
        (kw : List (String × PyVal)) (ct : Option String)
        (fls : Option (List FileArg)) (post : PostOutcome) (d : Decoder)
        (sb : StreamBehavior) (p : Dict) (r : StreamTaskResult),
        (kw.map Prod.fst).Nodup → ("user_id", v) ∈ kw →
        chat env cfg u c ct fls kw post d sb = Except.ok (p, r) →
        dictGet p "user_id" = Option.some v)
    ∧ (∀ (env : FileEnv) (cfg : ClientCfg) (u c : String) (v : PyVal)
        (kw : List (String × PyVal)) (ct : Option String)
        (fls : Option (List FileArg)) (post : PostOutcome) (d : Decoder)
        (sb : StreamBehavior) (p : Dict) (r : StreamTaskResult),
        (kw.map Prod.fst).Nodup → ("chat_id", v) ∈ kw →
        research env cfg u c ct fls kw post d sb = Except.ok (p, r) →
        dictGet p "chat_id" = Option.some v)
    ∧ (∀ (env : FileEnv) (cfg : ClientCfg) (u c s : String)
        (kw : List (String × PyVal)) (fls : Option (List FileArg))
        (post : PostOutcome) (d : Decoder) (sb : StreamBehavior) (p : Dict)
        (r : StreamTaskResult),
        hypotheses env cfg u c (Option.some s) fls kw post d sb = Except.ok (p, r) →
        dictGet p "content" = Option.some (PyVal.str s))
    ∧ (∀ (env : FileEnv) (cfg : ClientCfg) (u c : String)
        (kw : List (String × PyVal)) (ct : Option String)
        (fls : Option (List FileArg)) (post : PostOutcome) (d : Decoder)
        (sb : StreamBehavior) (p : Dict) (r : StreamTaskResult) (l : List Dict),
        prepare_files env cfg fls = Except.ok (Option.some l) → l.isEmpty = false →
        chat env cfg u c ct fls kw post d sb = Except.ok (p, r) →
        dictGet p "files" = Option.some (PyVal.list (l.map PyVal.dict))) := by
  refine ⟨?_, ?_, ?_, ?_⟩
  · intro env cfg u c v kw ct fls post d sb p r hnd hmem h
    exact composePayload_get_kw env cfg u c ct fls kw p "user_id" v (by decide)
      (by decide) hnd hmem (chat_ok_payload env cfg u c ct fls kw post d sb p r h)
  · intro env cfg u c v kw ct fls post d sb p r hnd hmem h
    rw [research_eq_chat] at h
    exact composePayload_get_kw env cfg u c ct fls kw p "chat_id" v (by decide)
      (by decide) hnd hmem (chat_ok_payload env cfg u c ct fls kw post d sb p r h)
  · intro env cfg u c s kw fls post d sb p r h
    rw [hypotheses_eq_chat] at h
    exact composePayload_get_content env cfg u c s fls kw p
      (chat_ok_payload env cfg u c (Option.some s) fls kw post d sb p r h)
  · intro env cfg u c kw ct fls post d sb p r l hpfl hl h
    exact composePayload_get_files env cfg u c ct fls kw p l hpfl hl
      (chat_ok_payload env cfg u c ct fls kw post d sb p r h)

/-- C10: when `_prepare_files` succeeds on a list, the prepared list has
one descriptor per input element in the same relative order, and every
dict element (necessarily carrying the three mandatory keys, since
validation passed) appears in the output at its own position as the
very same dict — extra keys preserved, nothing removed or rewritten. -/
theorem c10_theorem (env : FileEnv) (cfg : ClientCfg) (fs : List FileArg)
    (l : List Dict)
    (h : prepare_files env cfg (Option.some fs) = Except.ok (Option.some l)) :
    l.length = fs.length
    ∧ ∀ (i : Nat) (dd : Dict), fs[i]? = Option.some (FileArg.dict dd) →
        l[i]? = Option.some dd := by
  have hlist : prepareList env cfg fs = Except.ok l := by
    by_cases hfe : fs.isEmpty
    · simp [prepare_files, hfe] at h
    · simp only [prepare_files, Bool.not_eq_true] at h
      rw [if_neg (by simpa using hfe)] at h
      cases hpl : prepareList env cfg fs with
      | error m => rw [hpl] at h; cases h
      | ok l2 =>
          rw [hpl] at h
          have h2 : (if l2.length > 10 then (Except.error tooManyMsg : Except String (Option (List Dict)))
              else Except.ok (Option.some l2)) = Except.ok (Option.some l) := h
          by_cases hlen : l2.length > 10
          · rw [if_pos hlen] at h2; cases h2
          · rw [if_neg hlen] at h2
            cases h2
            rfl
  obtain ⟨hlen, hpt⟩ := prepareList_ok_pointwise env cfg fs l hlist
  refine ⟨hlen, ?_⟩
  intro i dd hi
  obtain ⟨d2, hone, hgot⟩ := hpt i (FileArg.dict dd) hi
  have hdd : d2 = dd := by
    by_cases hm : missingKeys dd = []
    · simp [prepareOne, hm] at hone
      exact hone.symm
    · simp [prepareOne, hm] at hone
  rw [hdd] at hgot
  exact hgot

/-- Fixture: the payload composed by `c7_witness`. -/
def pW7 : Dict :=
  [("user_id", PyVal.str "u1"), ("chat_id", PyVal.str "c1"),
   ("domain", PyVal.str "bio"), ("content", PyVal.str "")]

/-- Fixture: a complete file descriptor carrying an extra key. -/
def fdFull : Dict :=
  [("filename", PyVal.str "f"), ("content_type", PyVal.str "t"),
   ("base64", PyVal.str "b"), ("extra", PyVal.int 1)]

/-- Witness for the amended C4 theorem at a concrete run: one decodable
non-terminal message followed by a connection-loss exception yields the
running event and then exactly one synthetic error event. -/
theorem c4_witness :
    consume dW ["R"] (StreamEnd.raises "connection lost")
      = okEvents dW ["R"] ++ [streamErrorEvent "connection lost"] := by
  have hok : ∀ s ∈ (["R"] : List String), s ≠ "" →
      ∃ ev, dW s = Except.ok ev ∧ isTerminal ev = false := by
    intro s hs hne
    simp only [List.mem_singleton] at hs
    subst hs
    exact ⟨[("status", PyVal.str "running")], rfl, rfl⟩
  exact (c4_amended_theorem dW ["R"] hok).1 "connection lost"

/-- Witness for C5 at a concrete run: a running event, a keep-alive, a
completed event and a trailing message give exactly the two decoded
events, truncated at the terminal one. -/
theorem c5_witness :
    consume dW ["R", "", "C", "Z"] StreamEnd.exhausts
      = truncAtTerminal (okEvents dW ["R", "", "C", "Z"]) :=
  c5_theorem dW ["R", "", "C", "Z"] StreamEnd.exhausts (by decide) (by decide)

/-- Witness for C6 at concrete inputs: each validation fault fires with
its message, and `chat` propagates the fault for a concrete network
behaviour. -/
theorem c6_witness :
    prepare_files envFix cfgFix
        (Option.some [FileArg.dict [("filename", PyVal.str "a.txt")]])
      = Except.error (missingKeysMsg ["content_type", "base64"])
    ∧ prepare_files envFix cfgFix (Option.some [FileArg.other (PyVal.int 3)])
      = Except.error badTypeMsg
    ∧ prepare_files envFix cfgFix (Option.some (List.replicate 11 (FileArg.path "p")))
      = Except.error tooManyMsg
    ∧ chat envFix cfgFix "u" "c" Option.none
        (Option.some [FileArg.other (PyVal.int 3)]) [] postFix dW sbFix
      = Except.error badTypeMsg := by
  have hmiss : missingKeys [("filename", PyVal.str "a.txt")]
      = ["content_type", "base64"] := rfl
  have h1 := c6_theorem.1 envFix cfgFix [] [("filename", PyVal.str "a.txt")] []
    (by intro a ha; cases ha) (by decide)
  have h2 := c6_theorem.2.1 envFix cfgFix [] (PyVal.int 3) []
    (by intro a ha; cases ha)
  have h3 := c6_theorem.2.2.1 envFix cfgFix (List.replicate 11 (FileArg.path "p"))
    (by
      intro a ha
      have := List.eq_of_mem_replicate ha
      subst this
      rfl)
    (by simp [List.length_replicate])
  have h4 := (c6_theorem.2.2.2 envFix cfgFix "u" "c" Option.none
    (Option.some [FileArg.other (PyVal.int 3)]) [] badTypeMsg postFix dW sbFix
    (by exact h2)).1
  exact ⟨by simpa [hmiss] using h1, by simpa using h2, h3, h4⟩

/-- Witness for the amended C7 theorem at a concrete invocation: the
payload carries `user_id` and `chat_id`, keeps an explicitly passed
empty `content` string, and omits `files`. -/
theorem c7_witness :
    composePayload envFix cfgFix "u1" "c1" (Option.some "") Option.none
        [("domain", PyVal.str "bio")] = Except.ok pW7
    ∧ dictHas pW7 "user_id" = true ∧ dictHas pW7 "chat_id" = true
    ∧ dictHas pW7 "content" = (Option.some "").isSome
    ∧ dictHas pW7 "files" = false := by
  have hkw : ∀ kv ∈ ([("domain", PyVal.str "bio")] : List (String × PyVal)),
      kv.1 ≠ "content" ∧ kv.1 ≠ "files" := by decide
  have hcp : composePayload envFix cfgFix "u1" "c1" (Option.some "") Option.none
      [("domain", PyVal.str "bio")] = Except.ok pW7 := rfl
  obtain ⟨h1, h2, h3, h4⟩ := c7_amended_theorem envFix cfgFix "u1" "c1"
    (Option.some "") Option.none [("domain", PyVal.str "bio")] pW7 hkw hcp
  exact ⟨hcp, h1, h2, h3, h4 (Or.inl rfl)⟩

/-- Witness for C8 at a concrete environment whose compressor fails on
a PNG path: the descriptor comes from the original path and the result
equals the compression-disabled one. -/
theorem c8_witness :
    prepareOne envImgFail cfgFix (FileArg.path "photo.png")
      = Except.ok (envImgFail.load_file_as_payload "photo.png")
    ∧ prepareOne envImgFail cfgFix (FileArg.path "photo.png")
      = prepareOne envImgFail { cfgFix with auto_compress_images := false }
          (FileArg.path "photo.png") :=
  c8_theorem envImgFail cfgFix "photo.png" "image/png" "no space left on device"
    rfl rfl (by decide) rfl

/-- Witness for C9 at a concrete invocation: a keyword option named
`user_id` ends up as the payload's `user_id` value. -/
theorem c9_witness :
    chat envFix cfgFix "u1" "c1" (Option.some "hi") Option.none
        [("user_id", PyVal.str "override"), ("domain", PyVal.str "d")]
        postFix dW sbFix
      = Except.ok ([("user_id", PyVal.str "override"), ("chat_id", PyVal.str "c1"),
          ("domain", PyVal.str "d"), ("content", PyVal.str "hi")],
          StreamTaskResult.events [initErrorEvent "connection refused"])
    ∧ dictGet [("user_id", PyVal.str "override"), ("chat_id", PyVal.str "c1"),
          ("domain", PyVal.str "d"), ("content", PyVal.str "hi")] "user_id"
        = Option.some (PyVal.str "override") := by
  have hnd : (([("user_id", PyVal.str "override"), ("domain", PyVal.str "d")] :
      List (String × PyVal)).map Prod.fst).Nodup := by decide
  have hchat : chat envFix cfgFix "u1" "c1" (Option.some "hi") Option.none
      [("user_id", PyVal.str "override"), ("domain", PyVal.str "d")]
      postFix dW sbFix
      = Except.ok ([("user_id", PyVal.str "override"), ("chat_id", PyVal.str "c1"),
          ("domain", PyVal.str "d"), ("content", PyVal.str "hi")],
          StreamTaskResult.events [initErrorEvent "connection refused"]) := rfl
  exact ⟨hchat, c9_theorem.1 envFix cfgFix "u1" "c1" (PyVal.str "override") _
    (Option.some "hi") Option.none postFix dW sbFix _ _ hnd
    (List.mem_cons_self _ _) hchat⟩

/-- Witness for C10 at a concrete invocation: a descriptor with an
extra key is passed through verbatim at its position. -/
theorem c10_witness :
    prepare_files envFix cfgFix (Option.some [FileArg.dict fdFull])
      = Except.ok (Option.some [fdFull])
    ∧ [fdFull].length = [FileArg.dict fdFull].length
    ∧ [fdFull][0]? = Option.some fdFull := by
  have hp : prepare_files envFix cfgFix (Option.some [FileArg.dict fdFull])
      = Except.ok (Option.some [fdFull]) := rfl
  obtain ⟨hlen, hpt⟩ := c10_theorem envFix cfgFix [FileArg.dict fdFull] [fdFull] hp
  exact ⟨hp, hlen, hpt 0 fdFull rfl⟩

end DuoScience
